import Mathlib

/-!
# BitChat wire codec and mesh relay engine: a shallow embedding

Shallow embedding of the BitChat React Native core in Lean 4, translated from:
* `src/src/types/index.ts` (packet data model and protocol constants),
* `src/src/utils/CompressionUtil.ts` (run-length compression codec),
* `src/src/protocols/BinaryProtocol.ts` (binary wire codec),
* the `MessagePadding` class (PKCS#7-style padding),
* the `BluetoothMeshService` class (relay engine: dedup, relay fan-out, timers).

Bytes are modelled as `Nat`; a `Uint8Array` is a `List Nat` whose elements are
below 256 (the TS type system guarantees the bound on the wire, and the
`new Uint8Array(data)` construction in `encode` reduces every pushed value
mod 256, which the embedding reproduces).  JS `number` fields of a packet
(`version`, `type`, `ttl`, `timestamp`) are `Nat`.
-/

namespace Bitchat

/-! ## Protocol constants (`PROTOCOL_CONSTANTS` in `src/src/types/index.ts`) -/

def VERSION : Nat := 2

def HEADER_SIZE : Nat := 13

def SENDER_ID_SIZE : Nat := 8

def RECIPIENT_ID_SIZE : Nat := 8

def SIGNATURE_SIZE : Nat := 64

def MAX_TTL : Nat := 7

def MAX_PAYLOAD_SIZE : Nat := 4096

def COMPRESSION_THRESHOLD : Nat := 128

/-- `MessageType.MESSAGE = 0x04` from the `MessageType` enum. -/
def MESSAGE_TYPE : Nat := 4

/-- `MessageType.ANNOUNCE = 0x01`. -/
def ANNOUNCE_TYPE : Nat := 1

/-- `MessageType.KEY_EXCHANGE = 0x02`. -/
def KEY_EXCHANGE_TYPE : Nat := 2

/-! ## Data model: `BitchatPacket` (`src/src/types/index.ts`) -/

/-- The `flags` record of a `BitchatPacket`. -/
structure PacketFlags where
  hasRecipient : Bool
  hasSignature : Bool
  isCompressed : Bool
  isBSVRelated : Bool
deriving DecidableEq

/-- `BitchatPacket` from `src/src/types/index.ts`.  `recipientID` and
`signature` are optional fields (`undefined` is `none`); `type` is the
numeric value of the `MessageType` enum. -/
structure BitchatPacket where
  version : Nat
  type : Nat
  senderID : List Nat
  recipientID : Option (List Nat)
  timestamp : Nat
  payload : List Nat
  signature : Option (List Nat)
  ttl : Nat
  flags : PacketFlags
deriving DecidableEq

/-- Well-formedness that the TS types guarantee: the `number` header fields fit
one byte (`version`, `type`, `ttl` are written as single bytes; every enum
value of `MessageType` is below 256), the timestamp fits the 8 wire bytes,
and every element of a `Uint8Array` field is a byte. -/
def WellFormedPacket (p : BitchatPacket) : Prop :=
  p.version < 256 ∧ p.type < 256 ∧ p.ttl < 256 ∧ p.timestamp < 2 ^ 64 ∧
  (∀ b ∈ p.senderID, b < 256) ∧
  (∀ r ∈ p.recipientID.getD [], r < 256) ∧
  (∀ b ∈ p.payload, b < 256) ∧
  (∀ b ∈ p.signature.getD [], b < 256)

instance (p : BitchatPacket) : Decidable (WellFormedPacket p) := by
  unfold WellFormedPacket; infer_instance

/-! ## CompressionUtil (`src/src/utils/CompressionUtil.ts`) -/

namespace CompressionUtil

/-- Exact-arithmetic form of the source's entropy gate
`calculateEntropy(data) < 7.5`.  `calculateEntropy` is the Shannon entropy
`-∑ p_v * log2 p_v` over the byte frequencies `f_v` (`p_v = f_v / n`).
For `n > 0`, `entropy < 7.5` is equivalent to
`log2 (∏ (n / f_v) ^ f_v) < 7.5 * n`, i.e. (squaring the exponentiated form,
both sides positive) `n ^ (2n) < 2 ^ (15n) * ∏ f_v ^ (2 f_v)`, which is the
integer inequality used here (terms with `f_v = 0` contribute `0 ^ 0 = 1`,
matching the source's skip of zero frequencies).  The source evaluates the
entropy in float64; the exact form can only differ within rounding error of
the 7.5 cutoff, and every input this file evaluates is far from the cutoff. -/
def entropyBelowCutoff (data : List Nat) : Bool :=
  let n := data.length
  n ^ (2 * n) <
    2 ^ (15 * n) * ((List.range 256).map (fun v => (data.count v) ^ (2 * data.count v))).prod

/-- `CompressionUtil.shouldCompress`: length at least `COMPRESSION_THRESHOLD`
(128) and Shannon entropy below 7.5 bits/byte. -/
def shouldCompress (data : List Nat) : Bool :=
  if data.length < COMPRESSION_THRESHOLD then false
  else entropyBelowCutoff data

/-- The run-length loop of `CompressionUtil.compress`.  State: `lastByte`
(initially `-1`, hence `Int`), `count` (current run length), `acc` (output).
When a run is flushed the source pushes `[0xFF, lastByte, count]`; `count > 0`
guarantees `lastByte` is a byte, so `Int.toNat` is exact there. -/
def compressLoop : List Nat → Int → Nat → List Nat → List Nat
  | [], lastByte, count, acc =>
      if count > 0 then acc ++ [255, lastByte.toNat, count] else acc
  | currentByte :: rest, lastByte, count, acc =>
      if (currentByte : Int) = lastByte ∧ count < 255 then
        compressLoop rest lastByte (count + 1) acc
      else
        compressLoop rest (currentByte : Int) 1
          (acc ++ (if count > 0 then [255, lastByte.toNat, count] else []) ++
            (if currentByte ≠ 255 then [currentByte] else [255, 255, 1]))

/-- `CompressionUtil.compress`.  Returns `none` when `shouldCompress` fails or
when the result does not beat `MIN_COMPRESSION_RATIO = 0.9` of the input
(`result.length >= data.length * 0.9`, written exactly as
`10 * result.length >= 9 * data.length`).  The `catch` branch of the source is
unreachable (the loop body cannot throw). -/
def compress (data : List Nat) : Option (List Nat) :=
  if ¬ shouldCompress data then none
  else
    let result := compressLoop data (-1) 0 []
    if 10 * result.length ≥ 9 * data.length then none else some result

/-- The loop of `CompressionUtil.decompress`: while input remains and fewer
than `originalSize` bytes are out, a `0xFF` with at least two following bytes
is an escape `[0xFF, value, count]` emitting `count` copies of `value`
(clipped at `originalSize`); anything else is a literal. -/
def decompressLoop : List Nat → Nat → List Nat → List Nat
  | [], _, acc => acc
  | 255 :: value :: count :: rest, originalSize, acc =>
      if originalSize ≤ acc.length then acc
      else
        decompressLoop rest originalSize
          (acc ++ List.replicate (min count (originalSize - acc.length)) value)
  | byte :: rest, originalSize, acc =>
      if originalSize ≤ acc.length then acc
      else decompressLoop rest originalSize (acc ++ [byte])

/-- `CompressionUtil.decompress`.  The `catch` branch of the source is
unreachable, so the result is always `some`; the caller's null check in
`BinaryProtocol.decode` is dead code. -/
def decompress (compressedData : List Nat) (originalSize : Nat) : Option (List Nat) :=
  some (decompressLoop compressedData originalSize [])

end CompressionUtil

/-! ## MessagePadding (PKCS#7-style padding) -/

namespace MessagePadding

def MAX_PADDING : Nat := 255

/-- `getRandomBytes(length)` modelled with an explicit entropy oracle
`rand : Nat → Nat` supplying the byte at each position. -/
def getRandomBytes (length : Nat) (rand : Nat → Nat) : List Nat :=
  (List.range length).map rand

/-- `MessagePadding.pad`: input unchanged when already at/above target or when
the needed padding exceeds 255; otherwise the original bytes, then
`paddingNeeded - 1` random filler bytes, then one byte equal to
`paddingNeeded`. -/
def pad (data : List Nat) (targetSize : Nat) (rand : Nat → Nat) : List Nat :=
  if data.length ≥ targetSize then data
  else
    let paddingNeeded := targetSize - data.length
    if paddingNeeded > MAX_PADDING then data
    else
      data ++
        (if paddingNeeded > 1 then getRandomBytes (paddingNeeded - 1) rand
         else List.replicate (paddingNeeded - 1) 0) ++
        [paddingNeeded]

/-- `MessagePadding.isValidPKCS7Padding`: the last `paddingLength` bytes must
all equal `paddingLength`. -/
def isValidPKCS7Padding (data : List Nat) (paddingLength : Nat) : Bool :=
  if paddingLength ≤ 0 ∨ paddingLength > data.length then false
  else (data.drop (data.length - paddingLength)).all (fun b => b = paddingLength)

/-- `MessagePadding.unpad`: reads the last byte as the padding length; if it is
out of range or the trailing bytes fail the PKCS#7 check, the input is
returned unchanged. -/
def unpad (data : List Nat) : List Nat :=
  if data.length = 0 then data
  else
    let paddingLength := data.getD (data.length - 1) 0
    if paddingLength ≤ 0 ∨ paddingLength > data.length ∨ paddingLength > MAX_PADDING then data
    else if isValidPKCS7Padding data paddingLength then
      data.take (data.length - paddingLength)
    else data

end MessagePadding

/-! ## BinaryProtocol (`src/src/protocols/BinaryProtocol.ts`) -/

namespace BinaryProtocol

/-- Flag bit masks (`BinaryProtocol.FLAGS`). -/
def FLAG_HAS_RECIPIENT : Nat := 1

def FLAG_HAS_SIGNATURE : Nat := 2

def FLAG_IS_COMPRESSED : Nat := 4

def FLAG_IS_BSV_RELATED : Nat := 8

/-- `Uint8Array.slice(start, start + len)` on a byte list: both bounds clamp. -/
def sliceJS (data : List Nat) (start len : Nat) : List Nat :=
  (data.drop start).take len

/-- The 8 big-endian timestamp bytes pushed by `encode`:
byte `i` (from the left) is `Number((timestamp >> BigInt((7-i)*8)) & 0xFF)`. -/
def tsBytesBE (t : Nat) : List Nat :=
  [t / 2 ^ 56 % 256, t / 2 ^ 48 % 256, t / 2 ^ 40 % 256, t / 2 ^ 32 % 256,
   t / 2 ^ 24 % 256, t / 2 ^ 16 % 256, t / 2 ^ 8 % 256, t % 256]

/-- A 16-bit big-endian value as pushed by `encode`:
`[(x >> 8) & 0xFF, x & 0xFF]`. -/
def u16be (x : Nat) : List Nat :=
  [x / 256 % 256, x % 256]

/-- `encode`'s handling of `senderID` / `recipientID` / `signature`:
`slice(0, n)` then zero-padding up to exactly `n` bytes. -/
def zeroPadTo (l : List Nat) (n : Nat) : List Nat :=
  let b := l.take n
  b ++ List.replicate (n - b.length) 0

/-- The compression attempt at the top of `encode`: `some compressed` exactly
when `shouldCompress` holds and `compress` returns a strictly shorter array
(the source then sets `isCompressed = true` and records the original size). -/
def encodeCompression (payload : List Nat) : Option (List Nat) :=
  if CompressionUtil.shouldCompress payload then
    match CompressionUtil.compress payload with
    | some compressedPayload =>
        if compressedPayload.length < payload.length then some compressedPayload else none
    | none => none
  else none

/-- The flags byte built by `encode`: bits OR-ed in from the presence of
`recipientID` and `signature`, the success of compression, and the packet's
`flags.isBSVRelated` boolean (the bits are disjoint, so the OR is a sum).
The booleans `flags.hasRecipient`, `flags.hasSignature`, `flags.isCompressed`
of the packet are not consulted. -/
def encodeFlagsByte (p : BitchatPacket) (isCompressed : Bool) : Nat :=
  (if p.recipientID.isSome then FLAG_HAS_RECIPIENT else 0) +
  (if p.signature.isSome then FLAG_HAS_SIGNATURE else 0) +
  (if isCompressed then FLAG_IS_COMPRESSED else 0) +
  (if p.flags.isBSVRelated then FLAG_IS_BSV_RELATED else 0)

/-- The `number[]` buffer built by `BinaryProtocol.encode` before the final
`new Uint8Array(data)` conversion. -/
def encodeRaw (p : BitchatPacket) : List Nat :=
  match encodeCompression p.payload with
  | some payload =>
      [p.version, p.type, p.ttl] ++ tsBytesBE p.timestamp ++
        [encodeFlagsByte p true] ++ u16be (payload.length + 2) ++
        zeroPadTo p.senderID SENDER_ID_SIZE ++
        (match p.recipientID with
         | some r => zeroPadTo r RECIPIENT_ID_SIZE
         | none => []) ++
        payload ++ u16be p.payload.length ++
        (match p.signature with
         | some s => zeroPadTo s SIGNATURE_SIZE
         | none => [])
  | none =>
      [p.version, p.type, p.ttl] ++ tsBytesBE p.timestamp ++
        [encodeFlagsByte p false] ++ u16be p.payload.length ++
        zeroPadTo p.senderID SENDER_ID_SIZE ++
        (match p.recipientID with
         | some r => zeroPadTo r RECIPIENT_ID_SIZE
         | none => []) ++
        p.payload ++
        (match p.signature with
         | some s => zeroPadTo s SIGNATURE_SIZE
         | none => [])

/-- `BinaryProtocol.encode`.  The final `new Uint8Array(data)` coerces every
pushed value mod 256.  The `catch` branch of the source (returning `null`) is
unreachable: nothing in the body throws for the modelled field types, so the
function is total here. -/
def encode (p : BitchatPacket) : List Nat :=
  (encodeRaw p).map (fun b => b % 256)

/-- `trimNullBytes`: drop trailing zero bytes. -/
def trimNullBytes (data : List Nat) : List Nat :=
  (data.reverse.dropWhile (fun b => b = 0)).reverse

/-- The `expectedLength` computed by `decode` from the flags byte (index 11)
and payload-length bytes (indexes 12 and 13): sender section, optional
recipient section, payload section, optional signature. -/
def expectedLength (data : List Nat) : Nat :=
  SENDER_ID_SIZE +
  (if data.getD 11 0 &&& FLAG_HAS_RECIPIENT ≠ 0 then RECIPIENT_ID_SIZE else 0) +
  (data.getD 12 0 * 256 + data.getD 13 0) +
  (if data.getD 11 0 &&& FLAG_HAS_SIGNATURE ≠ 0 then SIGNATURE_SIZE else 0)

/-- `BinaryProtocol.decode`.  Byte reads `data[i]` are `getD i 0` (on the
actual `Uint8Array` domain every read the source performs past the initial
length check is either in range or, for the two payload-length bytes of a
13-byte input, coerced to 0 by the bitwise OR, which `getD`'s default
reproduces); `(hi << 8) | lo` is `hi * 256 + lo` on bytes; slices clamp.
After the header the running offset is 14 (the fixed sections are 14 bytes
even though `HEADER_SIZE` is declared as 13); in the compressed branch the
source advances the offset by `payloadLength - 2` and then 2, i.e. the
signature starts at `offset + payloadLength` in both branches, and the
original-size bytes sit at `offset + payloadLength - 2` (the subtraction
cannot underflow since the offset is at least 22). -/
def decode (data : List Nat) : Option BitchatPacket :=
  if data.length < HEADER_SIZE then none
  else
    let version := data.getD 0 0
    let type := data.getD 1 0
    let ttl := data.getD 2 0
    let timestamp :=
      ((((((data.getD 3 0 * 256 + data.getD 4 0) * 256 + data.getD 5 0) * 256 +
        data.getD 6 0) * 256 + data.getD 7 0) * 256 + data.getD 8 0) * 256 +
        data.getD 9 0) * 256 + data.getD 10 0
    let flags := data.getD 11 0
    let hasRecipient := flags &&& FLAG_HAS_RECIPIENT ≠ 0
    let hasSignature := flags &&& FLAG_HAS_SIGNATURE ≠ 0
    let isCompressed := flags &&& FLAG_IS_COMPRESSED ≠ 0
    let isBSVRelated := flags &&& FLAG_IS_BSV_RELATED ≠ 0
    let payloadLength := data.getD 12 0 * 256 + data.getD 13 0
    if data.length < HEADER_SIZE + expectedLength data then none
    else
      let senderID := sliceJS data 14 SENDER_ID_SIZE
      let recipientID : Option (List Nat) :=
        if hasRecipient then some (sliceJS data 22 RECIPIENT_ID_SIZE) else none
      let off := if hasRecipient then 30 else 22
      let payloadResult : Option (List Nat) :=
        if isCompressed then
          let compressedPayload := sliceJS data off (payloadLength - 2)
          let originalSize :=
            data.getD (off + payloadLength - 2) 0 * 256 + data.getD (off + payloadLength - 1) 0
          CompressionUtil.decompress compressedPayload originalSize
        else some (sliceJS data off payloadLength)
      match payloadResult with
      | none => none
      | some payload =>
          let signature : Option (List Nat) :=
            if hasSignature then some (sliceJS data (off + payloadLength) SIGNATURE_SIZE)
            else none
          some {
            version := version
            type := type
            senderID := trimNullBytes senderID
            recipientID := recipientID.map trimNullBytes
            timestamp := timestamp
            payload := payload
            signature := signature
            ttl := ttl
            flags := {
              hasRecipient := decide hasRecipient
              hasSignature := decide hasSignature
              isCompressed := decide isCompressed
              isBSVRelated := decide isBSVRelated
            }
          }

/-- `BinaryProtocol.validate`.  `Date.now()` is the explicit parameter `now`;
the source's `packet.ttl < 0` test cannot fire for a `Nat` ttl. -/
def validate (now : Nat) (packet : BitchatPacket) : Bool :=
  if packet.version ≠ VERSION then false
  else if packet.ttl > MAX_TTL then false
  else if packet.senderID.length = 0 ∨ packet.senderID.length > SENDER_ID_SIZE then false
  else if (match packet.recipientID with
           | some r => decide (r.length > RECIPIENT_ID_SIZE)
           | none => false) then false
  else if packet.payload.length > MAX_PAYLOAD_SIZE then false
  else if (match packet.signature with
           | some s => decide (s.length ≠ SIGNATURE_SIZE)
           | none => false) then false
  else if packet.timestamp > now + 300000 then false
  else true

/-- `BinaryProtocol.decrementTTL`: `none` when the ttl is already 0, otherwise
a copy with `ttl - 1`. -/
def decrementTTL (packet : BitchatPacket) : Option BitchatPacket :=
  if packet.ttl ≤ 0 then none
  else some { packet with ttl := packet.ttl - 1 }

/-- Repeated application of `decrementTTL` (the iteration the TTL-termination
property quantifies over): `decrementIter n p` is the result of `n`
applications, propagating `none`. -/
def decrementIter : Nat → BitchatPacket → Option BitchatPacket
  | 0, p => some p
  | n + 1, p => (decrementIter n p).bind decrementTTL

/-- The 8 little-endian timestamp bytes used by `generateMessageId`
(`new Uint8Array(new ArrayBuffer(8)).map((_, i) => (timestamp >> 8*i) & 0xFF)`). -/
def tsBytesLE (t : Nat) : List Nat :=
  [t % 256, t / 2 ^ 8 % 256, t / 2 ^ 16 % 256, t / 2 ^ 24 % 256,
   t / 2 ^ 32 % 256, t / 2 ^ 40 % 256, t / 2 ^ 48 % 256, t / 2 ^ 56 % 256]

/-- `BinaryProtocol.generateMessageId`: the 32-bit JS hash of
`senderID ++ timestamp(8 bytes LE) ++ payload[0..32]`.  Each step of the
source is `((hash << 5) - hash + byte) & 0xffffffff`, i.e. `31 * hash + byte`
mod `2^32`; the source renders the signed 32-bit value in hex, an injective
image of the value modelled here, so id equality is preserved. -/
def generateMessageId (packet : BitchatPacket) : Nat :=
  let input := packet.senderID ++ tsBytesLE packet.timestamp ++ packet.payload.take 32
  input.foldl (fun hash b => (31 * hash + b) % 2 ^ 32) 0

end BinaryProtocol

/-! ## BluetoothMeshService (the relay engine)

State machine of the `BluetoothMeshService` class.  Peer ids (device id
strings in the source) are abstract identifiers modelled as `Nat`.  The three
`NodeJS.Timeout` handles are modelled as pending/cancelled booleans.  The
fields not touched by the modelled operations (`discoveredDevices`,
`messageCache`, battery/scan parameters, the crypto service) are omitted.
Transport I/O and delegate callbacks are modelled as an emitted event list;
per-peer send failures of the mock transport are driven by an explicit
`sendFails` oracle, mirroring the independently-settled promises of
`Promise.allSettled`. -/

/-- The slice of `BitchatPeer` the relay engine reads and writes. -/
structure MeshPeer where
  lastSeen : Nat
  isConnected : Bool
deriving DecidableEq

/-- Observable effects of the engine: delegate callbacks, transport writes and
disconnect attempts.  `messageDelivered p fromPeer` stands for the
`delegate.onMessageReceived` call (the source converts the packet to a
`BitchatMessage` first; the claims only count and locate these calls, so the
event carries the packet itself).  `writeAttempt peer data ok` is one
`sendDataToPeer` promise: `ok` is false when the peer is missing/disconnected
or the transport oracle fails that peer. -/
inductive MeshEvent where
  | messageDelivered (packet : BitchatPacket) (fromPeerId : Nat)
  | writeAttempt (peerId : Nat) (data : List Nat) (ok : Bool)
  | disconnectAttempt (peerId : Nat)
  | peerDisconnected (peerId : Nat)
deriving DecidableEq

/-- Engine state (the mutable fields of `BluetoothMeshService` the claims
touch).  `connectedPeers` is the insertion-ordered `Map`, as an association
list; `processedMessages` is the dedup `Set` of message ids. -/
structure MeshState where
  isInitialized : Bool
  isScanning : Bool
  isAdvertising : Bool
  connectedPeers : List (Nat × MeshPeer)
  processedMessages : List Nat
  scanDutyCycleTimer : Bool
  peerCleanupTimer : Bool
  coverTrafficTimer : Bool
deriving DecidableEq

namespace MeshService

/-- `handleIncomingPacket`: a `MESSAGE` packet is delivered to the delegate via
`handleMessage`; the `ANNOUNCE`/`KEY_EXCHANGE`/default branches only log. -/
def handleIncomingPacket (packet : BitchatPacket) (fromPeerId : Nat) : List MeshEvent :=
  if packet.type = MESSAGE_TYPE then [MeshEvent.messageDelivered packet fromPeerId]
  else []

/-- `relayMessage`: decrement the TTL (abort when expired), then write the
re-encoded packet to every connected peer except the sender.  Each write is an
independently settled promise (`Promise.allSettled`): `sendDataToPeer` fails
for a disconnected peer or when the transport oracle fails that peer, without
affecting the other writes.  The source's null check on `encode`'s result is
dead code (`encode` is total here). -/
def relayMessage (sendFails : Nat → Bool) (s : MeshState) (packet : BitchatPacket)
    (fromPeerId : Nat) : List MeshEvent :=
  match BinaryProtocol.decrementTTL packet with
  | none => []
  | some relayPacket =>
      (s.connectedPeers.filter (fun pr => pr.1 ≠ fromPeerId)).map (fun pr =>
        MeshEvent.writeAttempt pr.1 (BinaryProtocol.encode relayPacket)
          (pr.2.isConnected && !sendFails pr.1))

/-- The `lastSeen` refresh of step 2 of the admission path:
`peer.lastSeen = Date.now()` when the sending peer is connected. -/
def refreshLastSeen (peers : List (Nat × MeshPeer)) (fromPeerId now : Nat) :
    List (Nat × MeshPeer) :=
  peers.map (fun pr =>
    if pr.1 = fromPeerId then (pr.1, { pr.2 with lastSeen := now }) else pr)

/-- `onDataReceived`, the packet admission path: decode, validate, dedup check
and insert, `lastSeen` refresh, per-type handling, then relay when
`packet.ttl > 0`. -/
def onDataReceived (now : Nat) (sendFails : Nat → Bool) (s : MeshState)
    (fromPeerId : Nat) (data : List Nat) : MeshState × List MeshEvent :=
  match BinaryProtocol.decode data with
  | none => (s, [])
  | some packet =>
      if BinaryProtocol.validate now packet then
        let messageId := BinaryProtocol.generateMessageId packet
        if messageId ∈ s.processedMessages then (s, [])
        else
          let s1 := { s with
            processedMessages := messageId :: s.processedMessages
            connectedPeers := refreshLastSeen s.connectedPeers fromPeerId now }
          let deliverEvents := handleIncomingPacket packet fromPeerId
          let relayEvents :=
            if packet.ttl > 0 then relayMessage sendFails s1 packet fromPeerId else []
          (s1, deliverEvents ++ relayEvents)
      else (s, [])

/-- `startPeriodicTasks` (run by `initialize`): schedules the stale-peer
cleanup interval and the cover-traffic interval, and reconfigures scan
parameters (`updateScanParameters` touches no timer). -/
def startPeriodicTasks (s : MeshState) : MeshState :=
  { s with peerCleanupTimer := true, coverTrafficTimer := true }

/-- `initialize`: a no-op when already initialized, otherwise starts the
periodic tasks and marks the service initialized (BLE/key setup is mocked). -/
def initializeService (s : MeshState) : MeshState :=
  if s.isInitialized then s
  else { startPeriodicTasks s with isInitialized := true }

/-- `startServices`: `startAdvertising` then `startScanning` (both guarded,
idempotent). -/
def startServices (s : MeshState) : MeshState :=
  { s with isAdvertising := true, isScanning := true }

/-- `stopScanning`: a no-op when not scanning; otherwise clears the scanning
flag and cancels the duty-cycle timer. -/
def stopScanning (s : MeshState) : MeshState :=
  if ¬ s.isScanning then s
  else { s with isScanning := false, scanDutyCycleTimer := false }

/-- `stopAdvertising`: clears the advertising flag. -/
def stopAdvertising (s : MeshState) : MeshState :=
  if ¬ s.isAdvertising then s
  else { s with isAdvertising := false }

/-- `disconnectAllPeers`: attempts `disconnectFromDevice` for every key of the
peer map, then clears the map. -/
def disconnectAllPeers (s : MeshState) : MeshState × List MeshEvent :=
  ({ s with connectedPeers := [] },
   s.connectedPeers.map (fun pr => MeshEvent.disconnectAttempt pr.1))

/-- `stopServices`: stop scanning, stop advertising, disconnect all peers.
No other field is touched; in particular neither `peerCleanupTimer` nor
`coverTrafficTimer` is cleared anywhere in the class. -/
def stopServices (s : MeshState) : MeshState × List MeshEvent :=
  let s1 := stopScanning s
  let s2 := stopAdvertising s1
  disconnectAllPeers s2

/-- The delegate `onMessageReceived` calls contained in an event list. -/
def deliveredEvents (events : List MeshEvent) : List MeshEvent :=
  events.filter (fun e =>
    match e with
    | MeshEvent.messageDelivered _ _ => true
    | _ => false)

/-- The targets of the transport writes contained in an event list. -/
def writeTargets (events : List MeshEvent) : List Nat :=
  events.filterMap (fun e =>
    match e with
    | MeshEvent.writeAttempt peerId _ _ => some peerId
    | _ => none)

/-- The transport write events contained in an event list. -/
def writeEvents (events : List MeshEvent) : List MeshEvent :=
  events.filter (fun e =>
    match e with
    | MeshEvent.writeAttempt _ _ _ => true
    | _ => false)

/-- The disconnect attempts contained in an event list. -/
def disconnectAttempts (events : List MeshEvent) : List Nat :=
  events.filterMap (fun e =>
    match e with
    | MeshEvent.disconnectAttempt peerId => some peerId
    | _ => none)

end MeshService

/-! ## Concrete inputs used by the counterexamples and witnesses -/

/-- A low-entropy, compressible payload with two byte runs:
127 zero bytes followed by a single `0x01`. -/
def cexPayload : List Nat := List.replicate 127 0 ++ [1]

/-- A valid packet whose payload is `cexPayload` (compression triggers on
encode). -/
def cexPacket : BitchatPacket := {
  version := 2
  type := 4
  senderID := [170]
  recipientID := none
  timestamp := 1000
  payload := cexPayload
  signature := none
  ttl := 3
  flags := ⟨false, false, false, false⟩ }

/-- A small valid `MESSAGE` packet whose payload is too short to compress. -/
def wPacket : BitchatPacket := {
  version := 2
  type := 4
  senderID := [170]
  recipientID := none
  timestamp := 1000
  payload := [1, 2, 3]
  signature := none
  ttl := 3
  flags := ⟨false, false, false, false⟩ }

/-- An engine state with three connected peers `1`, `2`, `3` and an empty
dedup cache (the state after initialization, service start and three
successful `connectToDevice` calls). -/
def wState : MeshState := {
  isInitialized := true
  isScanning := true
  isAdvertising := true
  connectedPeers := [(1, ⟨0, true⟩), (2, ⟨0, true⟩), (3, ⟨0, true⟩)]
  processedMessages := []
  scanDutyCycleTimer := false
  peerCleanupTimer := true
  coverTrafficTimer := true }

/-- The empty engine state before initialization. -/
def meshStart : MeshState := {
  isInitialized := false
  isScanning := false
  isAdvertising := false
  connectedPeers := []
  processedMessages := []
  scanDutyCycleTimer := false
  peerCleanupTimer := false
  coverTrafficTimer := false }

/-- An active engine: `initialize` (which runs `startPeriodicTasks`), then
`startServices`, then two peers connected. -/
def s9State : MeshState :=
  { MeshService.startServices (MeshService.initializeService meshStart) with
      connectedPeers := [(1, ⟨0, true⟩), (2, ⟨5, true⟩)] }

/-- A wire input with one surplus trailing byte after a complete packet. -/
def cex6Data : List Nat := BinaryProtocol.encode wPacket ++ [99]

/-- A valid packet whose `flags.hasRecipient` boolean disagrees with its
actual (absent) recipientID — `validate` does not inspect the flags. -/
def cexFlagsPacket : BitchatPacket :=
  { wPacket with flags := ⟨true, false, false, false⟩ }

/-! ## Helper lemmas -/

set_option maxRecDepth 100000

namespace BinaryProtocol

theorem trimNullBytes_append_replicate (l : List Nat) (k : Nat) :
    trimNullBytes (l ++ List.replicate k 0) = trimNullBytes l := by
  unfold trimNullBytes
  rw [List.reverse_append, List.reverse_replicate]
  congr 1
  induction k with
  | zero => simp
  | succ k _ => simp [List.replicate_succ, List.dropWhile]

theorem zeroPadTo_length (l : List Nat) (n : Nat) : (zeroPadTo l n).length = n := by
  simp [zeroPadTo]
  try omega

theorem zeroPadTo_of_le (l : List Nat) (n : Nat) (h : l.length ≤ n) :
    zeroPadTo l n = l ++ List.replicate (n - l.length) 0 := by
  simp [zeroPadTo, List.take_of_length_le h]

theorem trimNullBytes_zeroPadTo (l : List Nat) (n : Nat) (h : l.length ≤ n) :
    trimNullBytes (zeroPadTo l n) = trimNullBytes l := by
  rw [zeroPadTo_of_le l n h, trimNullBytes_append_replicate]

theorem flagSum_bit1 (a b c d : Bool) :
    ((if a then 1 else 0) + (if b then 2 else 0) + (if c then 4 else 0) +
      (if d then 8 else 0)) &&& 1 ≠ 0 ↔ a = true := by
  cases a <;> cases b <;> cases c <;> cases d <;> decide

theorem flagSum_bit2 (a b c d : Bool) :
    ((if a then 1 else 0) + (if b then 2 else 0) + (if c then 4 else 0) +
      (if d then 8 else 0)) &&& 2 ≠ 0 ↔ b = true := by
  cases a <;> cases b <;> cases c <;> cases d <;> decide

theorem flagSum_bit4 (a b c d : Bool) :
    ((if a then 1 else 0) + (if b then 2 else 0) + (if c then 4 else 0) +
      (if d then 8 else 0)) &&& 4 ≠ 0 ↔ c = true := by
  cases a <;> cases b <;> cases c <;> cases d <;> decide

theorem flagSum_bit8 (a b c d : Bool) :
    ((if a then 1 else 0) + (if b then 2 else 0) + (if c then 4 else 0) +
      (if d then 8 else 0)) &&& 8 ≠ 0 ↔ d = true := by
  cases a <;> cases b <;> cases c <;> cases d <;> decide

/-- The bound on the flags byte `encode` builds. -/
theorem encodeFlagsByte_lt (p : BitchatPacket) (c : Bool) : encodeFlagsByte p c < 256 := by
  unfold encodeFlagsByte FLAG_HAS_RECIPIENT FLAG_HAS_SIGNATURE FLAG_IS_COMPRESSED
    FLAG_IS_BSV_RELATED
  split_ifs <;> norm_num

end BinaryProtocol

section HeaderAccess

/-! Byte access on a list whose first 14 cells are explicit: the reads and
drops `decode` performs on the fixed sections, reduced definitionally. -/

variable (b0 b1 b2 b3 b4 b5 b6 b7 b8 b9 b10 b11 b12 b13 : Nat) (rest : List Nat)

theorem hdGet0 :
    (b0 :: b1 :: b2 :: b3 :: b4 :: b5 :: b6 :: b7 :: b8 :: b9 :: b10 :: b11 :: b12 ::
      b13 :: rest).getD 0 0 = b0 := rfl

theorem hdGet1 :
    (b0 :: b1 :: b2 :: b3 :: b4 :: b5 :: b6 :: b7 :: b8 :: b9 :: b10 :: b11 :: b12 ::
      b13 :: rest).getD 1 0 = b1 := rfl

theorem hdGet2 :
    (b0 :: b1 :: b2 :: b3 :: b4 :: b5 :: b6 :: b7 :: b8 :: b9 :: b10 :: b11 :: b12 ::
      b13 :: rest).getD 2 0 = b2 := rfl

theorem hdGet3 :
    (b0 :: b1 :: b2 :: b3 :: b4 :: b5 :: b6 :: b7 :: b8 :: b9 :: b10 :: b11 :: b12 ::
      b13 :: rest).getD 3 0 = b3 := rfl

theorem hdGet4 :
    (b0 :: b1 :: b2 :: b3 :: b4 :: b5 :: b6 :: b7 :: b8 :: b9 :: b10 :: b11 :: b12 ::
      b13 :: rest).getD 4 0 = b4 := rfl

theorem hdGet5 :
    (b0 :: b1 :: b2 :: b3 :: b4 :: b5 :: b6 :: b7 :: b8 :: b9 :: b10 :: b11 :: b12 ::
      b13 :: rest).getD 5 0 = b5 := rfl

theorem hdGet6 :
    (b0 :: b1 :: b2 :: b3 :: b4 :: b5 :: b6 :: b7 :: b8 :: b9 :: b10 :: b11 :: b12 ::
      b13 :: rest).getD 6 0 = b6 := rfl

theorem hdGet7 :
    (b0 :: b1 :: b2 :: b3 :: b4 :: b5 :: b6 :: b7 :: b8 :: b9 :: b10 :: b11 :: b12 ::
      b13 :: rest).getD 7 0 = b7 := rfl

theorem hdGet8 :
    (b0 :: b1 :: b2 :: b3 :: b4 :: b5 :: b6 :: b7 :: b8 :: b9 :: b10 :: b11 :: b12 ::
      b13 :: rest).getD 8 0 = b8 := rfl

theorem hdGet9 :
    (b0 :: b1 :: b2 :: b3 :: b4 :: b5 :: b6 :: b7 :: b8 :: b9 :: b10 :: b11 :: b12 ::
      b13 :: rest).getD 9 0 = b9 := rfl

theorem hdGet10 :
    (b0 :: b1 :: b2 :: b3 :: b4 :: b5 :: b6 :: b7 :: b8 :: b9 :: b10 :: b11 :: b12 ::
      b13 :: rest).getD 10 0 = b10 := rfl

theorem hdGet11 :
    (b0 :: b1 :: b2 :: b3 :: b4 :: b5 :: b6 :: b7 :: b8 :: b9 :: b10 :: b11 :: b12 ::
      b13 :: rest).getD 11 0 = b11 := rfl

theorem hdGet12 :
    (b0 :: b1 :: b2 :: b3 :: b4 :: b5 :: b6 :: b7 :: b8 :: b9 :: b10 :: b11 :: b12 ::
      b13 :: rest).getD 12 0 = b12 := rfl

theorem hdGet13 :
    (b0 :: b1 :: b2 :: b3 :: b4 :: b5 :: b6 :: b7 :: b8 :: b9 :: b10 :: b11 :: b12 ::
      b13 :: rest).getD 13 0 = b13 := rfl

theorem hdDrop14 :
    (b0 :: b1 :: b2 :: b3 :: b4 :: b5 :: b6 :: b7 :: b8 :: b9 :: b10 :: b11 :: b12 ::
      b13 :: rest).drop 14 = rest := rfl

theorem hdDrop22 :
    (b0 :: b1 :: b2 :: b3 :: b4 :: b5 :: b6 :: b7 :: b8 :: b9 :: b10 :: b11 :: b12 ::
      b13 :: rest).drop 22 = rest.drop 8 := rfl

theorem hdDrop30 :
    (b0 :: b1 :: b2 :: b3 :: b4 :: b5 :: b6 :: b7 :: b8 :: b9 :: b10 :: b11 :: b12 ::
      b13 :: rest).drop 30 = rest.drop 16 := rfl

theorem hdLen :
    (b0 :: b1 :: b2 :: b3 :: b4 :: b5 :: b6 :: b7 :: b8 :: b9 :: b10 :: b11 :: b12 ::
      b13 :: rest).length = 14 + rest.length := by
  simp
  omega

end HeaderAccess

namespace BinaryProtocol

/-- `compress` failing means `encode` attempts no compression. -/
theorem encodeCompression_none (payload : List Nat)
    (h : CompressionUtil.compress payload = none) :
    encodeCompression payload = none := by
  unfold encodeCompression
  split_ifs with h1
  · rw [h]
  · rfl

/-- `encodeRaw` on a payload the compression attempt leaves alone. -/
theorem encodeRaw_uncompressed (p : BitchatPacket)
    (h : encodeCompression p.payload = none) :
    encodeRaw p =
      [p.version, p.type, p.ttl] ++ tsBytesBE p.timestamp ++
        [encodeFlagsByte p false] ++ u16be p.payload.length ++
        zeroPadTo p.senderID SENDER_ID_SIZE ++
        (match p.recipientID with
         | some r => zeroPadTo r RECIPIENT_ID_SIZE
         | none => []) ++
        p.payload ++
        (match p.signature with
         | some s => zeroPadTo s SIGNATURE_SIZE
         | none => []) := by
  unfold encodeRaw
  rw [h]

/-- Reducing every element mod 256 is the identity on byte lists. -/
theorem map_mod_id (l : List Nat) (h : ∀ b ∈ l, b < 256) :
    l.map (fun b => b % 256) = l := by
  induction l with
  | nil => rfl
  | cons a t ih =>
      simp only [List.map_cons, List.cons.injEq]
      exact ⟨Nat.mod_eq_of_lt (h a (List.mem_cons_self a t)),
        ih (fun b hb => h b (List.mem_cons_of_mem a hb))⟩

/-- Zero-padding a byte list yields bytes. -/
theorem zeroPadTo_bytes_lt (l : List Nat) (n : Nat) (h : ∀ x ∈ l, x < 256) :
    ∀ b ∈ zeroPadTo l n, b < 256 := by
  intro b hb
  simp only [zeroPadTo] at hb
  rcases List.mem_append.mp hb with hb | hb
  · exact h b (List.take_subset _ _ hb)
  · rw [List.eq_of_mem_replicate hb]; norm_num

/-- Every byte `encodeRaw` pushes for a well-formed, uncompressed packet is
already below 256, so the `new Uint8Array` coercion changes nothing. -/
theorem encode_eq_encodeRaw (p : BitchatPacket) (hwf : WellFormedPacket p)
    (hnc : encodeCompression p.payload = none) :
    encode p = encodeRaw p := by
  obtain ⟨hv, hty, httl, hts, hsb, hrb, hpb, hsgb⟩ := hwf
  apply map_mod_id
  rw [encodeRaw_uncompressed p hnc]
  have hA : ∀ b ∈ [p.version, p.type, p.ttl], b < 256 := by
    simp only [List.mem_cons, List.not_mem_nil, or_false, forall_eq_or_imp, forall_eq]
    exact ⟨hv, hty, httl⟩
  have hB : ∀ b ∈ tsBytesBE p.timestamp, b < 256 := by
    simp only [tsBytesBE, List.mem_cons, List.not_mem_nil, or_false, forall_eq_or_imp,
      forall_eq]
    omega
  have hC : ∀ b ∈ [encodeFlagsByte p false], b < 256 := by
    simp only [List.mem_singleton, forall_eq]
    exact encodeFlagsByte_lt p false
  have hD : ∀ b ∈ u16be p.payload.length, b < 256 := by
    simp only [u16be, List.mem_cons, List.not_mem_nil, or_false, forall_eq_or_imp,
      forall_eq]
    omega
  have hE : ∀ b ∈ zeroPadTo p.senderID SENDER_ID_SIZE, b < 256 :=
    zeroPadTo_bytes_lt _ _ hsb
  have hF : ∀ b ∈ (match p.recipientID with
      | some r => zeroPadTo r RECIPIENT_ID_SIZE
      | none => []), b < 256 := by
    rcases hpr : p.recipientID with _ | r
    · simp
    · exact zeroPadTo_bytes_lt _ _ (by rw [hpr] at hrb; exact hrb)
  have hH : ∀ b ∈ (match p.signature with
      | some s => zeroPadTo s SIGNATURE_SIZE
      | none => []), b < 256 := by
    rcases hps : p.signature with _ | s
    · simp
    · exact zeroPadTo_bytes_lt _ _ (by rw [hps] at hsgb; exact hsgb)
  intro b hb
  simp only [List.mem_append] at hb
  rcases hb with (((((((hb | hb) | hb) | hb) | hb) | hb) | hb) | hb)
  · exact hA b hb
  · exact hB b hb
  · exact hC b hb
  · exact hD b hb
  · exact hE b hb
  · exact hF b hb
  · exact hpb b hb
  · exact hH b hb

/-- The big-endian byte fold `decode` performs inverts `tsBytesBE` for any
value that fits 64 bits. -/
theorem tsBE_fold (t : Nat) (h : t < 2 ^ 64) :
    ((((((t / 2 ^ 56 % 256 * 256 + t / 2 ^ 48 % 256) * 256 + t / 2 ^ 40 % 256) * 256 +
      t / 2 ^ 32 % 256) * 256 + t / 2 ^ 24 % 256) * 256 + t / 2 ^ 16 % 256) * 256 +
      t / 2 ^ 8 % 256) * 256 + t % 256 = t := by
  omega

/-- Decoding an encoding whose payload the compression attempt left alone
restores every field; the senderID and recipientID come back with their
trailing zero bytes trimmed, and the flags are recomputed from the sections
present on the wire. -/
theorem decode_encode_uncompressed (p : BitchatPacket)
    (hwf : WellFormedPacket p)
    (hs8 : p.senderID.length ≤ SENDER_ID_SIZE)
    (hr8 : ∀ r ∈ p.recipientID, r.length ≤ RECIPIENT_ID_SIZE)
    (hp4 : p.payload.length ≤ MAX_PAYLOAD_SIZE)
    (hsig : ∀ s ∈ p.signature, s.length = SIGNATURE_SIZE)
    (hnc : CompressionUtil.compress p.payload = none) :
    decode (encode p) =
      some { p with
        senderID := trimNullBytes p.senderID
        recipientID := p.recipientID.map trimNullBytes
        flags := ⟨p.recipientID.isSome, p.signature.isSome, false, p.flags.isBSVRelated⟩ } := by
  have hts : p.timestamp < 2 ^ 64 := hwf.2.2.2.1
  have hnc2 := encodeCompression_none _ hnc
  have hCmp : ¬(encodeFlagsByte p false &&& FLAG_IS_COMPRESSED ≠ 0) := by
    unfold encodeFlagsByte FLAG_HAS_RECIPIENT FLAG_HAS_SIGNATURE FLAG_IS_COMPRESSED
      FLAG_IS_BSV_RELATED
    rw [flagSum_bit4]
    simp
  have hBsv : (encodeFlagsByte p false &&& FLAG_IS_BSV_RELATED ≠ 0) ↔
      p.flags.isBSVRelated = true := by
    unfold encodeFlagsByte FLAG_HAS_RECIPIENT FLAG_HAS_SIGNATURE FLAG_IS_COMPRESSED
      FLAG_IS_BSV_RELATED
    exact flagSum_bit8 _ _ _ _
  have hPL : p.payload.length / 256 % 256 * 256 + p.payload.length % 256 =
      p.payload.length := by
    unfold MAX_PAYLOAD_SIZE at hp4; omega
  have hzlS : (zeroPadTo p.senderID SENDER_ID_SIZE).length = SENDER_ID_SIZE :=
    zeroPadTo_length _ _
  have hzl8 : (zeroPadTo p.senderID SENDER_ID_SIZE).length = 8 := by
    rw [zeroPadTo_length]; rfl
  rcases hpr : p.recipientID with _ | rid <;> rcases hps : p.signature with _ | sg
  · -- no recipient, no signature
    have hRec : ¬(encodeFlagsByte p false &&& FLAG_HAS_RECIPIENT ≠ 0) := by
      unfold encodeFlagsByte FLAG_HAS_RECIPIENT FLAG_HAS_SIGNATURE FLAG_IS_COMPRESSED
        FLAG_IS_BSV_RELATED
      rw [flagSum_bit1]
      simp [hpr]
    have hSig : ¬(encodeFlagsByte p false &&& FLAG_HAS_SIGNATURE ≠ 0) := by
      unfold encodeFlagsByte FLAG_HAS_RECIPIENT FLAG_HAS_SIGNATURE FLAG_IS_COMPRESSED
        FLAG_IS_BSV_RELATED
      rw [flagSum_bit2]
      simp [hps]
    rw [encode_eq_encodeRaw p hwf hnc2, encodeRaw_uncompressed p hnc2, hpr, hps]
    simp only [tsBytesBE, u16be, List.cons_append, List.nil_append, List.append_nil,
      List.append_assoc]
    unfold decode
    rw [hdLen]
    rw [if_neg (by unfold HEADER_SIZE; omega)]
    simp only [expectedLength, hdGet0, hdGet1, hdGet2, hdGet3, hdGet4, hdGet5, hdGet6,
      hdGet7, hdGet8, hdGet9, hdGet10, hdGet11, hdGet12, hdGet13, hdLen]
    simp only [hRec, hSig, hCmp, hBsv, hPL, if_false, ite_false, decide_False,
      not_false_eq_true]
    rw [if_neg (by
      simp only [List.length_append, zeroPadTo_length]
      unfold HEADER_SIZE SENDER_ID_SIZE
      omega)]
    unfold sliceJS
    rw [hdDrop14, hdDrop22, List.take_left' hzlS, List.drop_left' hzl8, List.take_length,
      trimNullBytes_zeroPadTo _ _ hs8, tsBE_fold _ hts]
    simp
  · -- no recipient, signature present
    have hRec : ¬(encodeFlagsByte p false &&& FLAG_HAS_RECIPIENT ≠ 0) := by
      unfold encodeFlagsByte FLAG_HAS_RECIPIENT FLAG_HAS_SIGNATURE FLAG_IS_COMPRESSED
        FLAG_IS_BSV_RELATED
      rw [flagSum_bit1]
      simp [hpr]
    have hSig : encodeFlagsByte p false &&& FLAG_HAS_SIGNATURE ≠ 0 := by
      unfold encodeFlagsByte FLAG_HAS_RECIPIENT FLAG_HAS_SIGNATURE FLAG_IS_COMPRESSED
        FLAG_IS_BSV_RELATED
      rw [flagSum_bit2]
      simp [hps]
    have hsg64 : sg.length = SIGNATURE_SIZE := hsig sg (by rw [hps]; rfl)
    have hzg : zeroPadTo sg SIGNATURE_SIZE = sg := by
      rw [zeroPadTo_of_le _ _ (Nat.le_of_eq hsg64), hsg64]
      simp
    rw [encode_eq_encodeRaw p hwf hnc2, encodeRaw_uncompressed p hnc2, hpr, hps]
    simp only [tsBytesBE, u16be, List.cons_append, List.nil_append, List.append_nil,
      List.append_assoc]
    unfold decode
    rw [hdLen]
    rw [if_neg (by unfold HEADER_SIZE; omega)]
    simp only [expectedLength, hdGet0, hdGet1, hdGet2, hdGet3, hdGet4, hdGet5, hdGet6,
      hdGet7, hdGet8, hdGet9, hdGet10, hdGet11, hdGet12, hdGet13, hdLen]
    simp only [hRec, eq_true hSig, hCmp, hBsv, hPL, if_false, ite_false, if_true,
      ite_true, decide_False, not_false_eq_true]
    rw [if_neg (by
      simp only [List.length_append, zeroPadTo_length]
      unfold HEADER_SIZE SENDER_ID_SIZE SIGNATURE_SIZE
      omega)]
    unfold sliceJS
    rw [hdDrop14, hdDrop22]
    rw [← List.drop_drop, hdDrop22]
    rw [List.drop_left' hzl8]
    rw [List.take_left' hzlS, List.take_left, List.drop_left]
    rw [List.take_of_length_le (Nat.le_of_eq (zeroPadTo_length _ _)), hzg]
    rw [trimNullBytes_zeroPadTo _ _ hs8, tsBE_fold _ hts]
    simp
  · -- recipient present, no signature
    have hRec : encodeFlagsByte p false &&& FLAG_HAS_RECIPIENT ≠ 0 := by
      unfold encodeFlagsByte FLAG_HAS_RECIPIENT FLAG_HAS_SIGNATURE FLAG_IS_COMPRESSED
        FLAG_IS_BSV_RELATED
      rw [flagSum_bit1]
      simp [hpr]
    have hSig : ¬(encodeFlagsByte p false &&& FLAG_HAS_SIGNATURE ≠ 0) := by
      unfold encodeFlagsByte FLAG_HAS_RECIPIENT FLAG_HAS_SIGNATURE FLAG_IS_COMPRESSED
        FLAG_IS_BSV_RELATED
      rw [flagSum_bit2]
      simp [hps]
    have hrlS : (zeroPadTo rid RECIPIENT_ID_SIZE).length = RECIPIENT_ID_SIZE :=
      zeroPadTo_length _ _
    have hrl8 : (zeroPadTo rid RECIPIENT_ID_SIZE).length = 8 := by
      rw [zeroPadTo_length]; rfl
    have hrid8 : rid.length ≤ RECIPIENT_ID_SIZE := hr8 rid (by rw [hpr]; rfl)
    have drop16 : ∀ rest2 : List Nat,
        (zeroPadTo p.senderID SENDER_ID_SIZE ++
          (zeroPadTo rid RECIPIENT_ID_SIZE ++ rest2)).drop 16 = rest2 := by
      intro rest2
      rw [show (16 : Nat) = 8 + 8 from rfl, ← List.drop_drop, List.drop_left' hzl8,
        List.drop_left' hrl8]
    rw [encode_eq_encodeRaw p hwf hnc2, encodeRaw_uncompressed p hnc2, hpr, hps]
    simp only [tsBytesBE, u16be, List.cons_append, List.nil_append, List.append_nil,
      List.append_assoc]
    unfold decode
    rw [hdLen]
    rw [if_neg (by unfold HEADER_SIZE; omega)]
    simp only [expectedLength, hdGet0, hdGet1, hdGet2, hdGet3, hdGet4, hdGet5, hdGet6,
      hdGet7, hdGet8, hdGet9, hdGet10, hdGet11, hdGet12, hdGet13, hdLen]
    simp only [eq_true hRec, hSig, hCmp, hBsv, hPL, if_false, ite_false, if_true,
      ite_true, decide_False, not_false_eq_true]
    rw [if_neg (by
      simp only [List.length_append, zeroPadTo_length]
      unfold HEADER_SIZE SENDER_ID_SIZE RECIPIENT_ID_SIZE
      omega)]
    unfold sliceJS
    rw [hdDrop14, hdDrop22, hdDrop30]
    rw [drop16]
    rw [List.take_left' hzlS, List.drop_left' hzl8, List.take_left' hrlS,
      List.take_length]
    rw [trimNullBytes_zeroPadTo _ _ hs8, tsBE_fold _ hts]
    simp [trimNullBytes_zeroPadTo _ _ hrid8]
  · -- recipient and signature present
    have hRec : encodeFlagsByte p false &&& FLAG_HAS_RECIPIENT ≠ 0 := by
      unfold encodeFlagsByte FLAG_HAS_RECIPIENT FLAG_HAS_SIGNATURE FLAG_IS_COMPRESSED
        FLAG_IS_BSV_RELATED
      rw [flagSum_bit1]
      simp [hpr]
    have hSig : encodeFlagsByte p false &&& FLAG_HAS_SIGNATURE ≠ 0 := by
      unfold encodeFlagsByte FLAG_HAS_RECIPIENT FLAG_HAS_SIGNATURE FLAG_IS_COMPRESSED
        FLAG_IS_BSV_RELATED
      rw [flagSum_bit2]
      simp [hps]
    have hrlS : (zeroPadTo rid RECIPIENT_ID_SIZE).length = RECIPIENT_ID_SIZE :=
      zeroPadTo_length _ _
    have hrl8 : (zeroPadTo rid RECIPIENT_ID_SIZE).length = 8 := by
      rw [zeroPadTo_length]; rfl
    have hsg64 : sg.length = SIGNATURE_SIZE := hsig sg (by rw [hps]; rfl)
    have hrid8 : rid.length ≤ RECIPIENT_ID_SIZE := hr8 rid (by rw [hpr]; rfl)
    have hzg : zeroPadTo sg SIGNATURE_SIZE = sg := by
      rw [zeroPadTo_of_le _ _ (Nat.le_of_eq hsg64), hsg64]
      simp
    have drop16 : ∀ rest2 : List Nat,
        (zeroPadTo p.senderID SENDER_ID_SIZE ++
          (zeroPadTo rid RECIPIENT_ID_SIZE ++ rest2)).drop 16 = rest2 := by
      intro rest2
      rw [show (16 : Nat) = 8 + 8 from rfl, ← List.drop_drop, List.drop_left' hzl8,
        List.drop_left' hrl8]
    rw [encode_eq_encodeRaw p hwf hnc2, encodeRaw_uncompressed p hnc2, hpr, hps]
    simp only [tsBytesBE, u16be, List.cons_append, List.nil_append, List.append_nil,
      List.append_assoc]
    unfold decode
    rw [hdLen]
    rw [if_neg (by unfold HEADER_SIZE; omega)]
    simp only [expectedLength, hdGet0, hdGet1, hdGet2, hdGet3, hdGet4, hdGet5, hdGet6,
      hdGet7, hdGet8, hdGet9, hdGet10, hdGet11, hdGet12, hdGet13, hdLen]
    simp only [eq_true hRec, eq_true hSig, hCmp, hBsv, hPL, if_false, ite_false,
      if_true, ite_true, decide_False, not_false_eq_true]
    rw [if_neg (by
      simp only [List.length_append, zeroPadTo_length]
      unfold HEADER_SIZE SENDER_ID_SIZE RECIPIENT_ID_SIZE SIGNATURE_SIZE
      omega)]
    unfold sliceJS
    rw [hdDrop14, hdDrop22, hdDrop30]
    rw [← List.drop_drop, hdDrop30]
    rw [drop16]
    rw [List.take_left' hzlS, List.drop_left' hzl8, List.take_left' hrlS, List.take_left,
      List.drop_left]
    rw [List.take_of_length_le (Nat.le_of_eq (zeroPadTo_length _ _)), hzg]
    rw [trimNullBytes_zeroPadTo _ _ hs8, tsBE_fold _ hts]
    simp [trimNullBytes_zeroPadTo _ _ hrid8]

/-- `validate` unfolded into the conjunction of its checks. -/
theorem validate_true_iff (now : Nat) (p : BitchatPacket) :
    validate now p = true ↔
      (p.version = VERSION ∧ p.ttl ≤ MAX_TTL ∧ p.senderID.length ≠ 0 ∧
       p.senderID.length ≤ SENDER_ID_SIZE ∧
       (∀ r ∈ p.recipientID, r.length ≤ RECIPIENT_ID_SIZE) ∧
       p.payload.length ≤ MAX_PAYLOAD_SIZE ∧
       (∀ s ∈ p.signature, s.length = SIGNATURE_SIZE) ∧
       p.timestamp ≤ now + 300000) := by
  rcases p with ⟨v, ty, sid, rid, ts, pl, sg, ttl, fl⟩
  rcases rid with _ | r <;> rcases sg with _ | s <;>
    (unfold validate; split_ifs <;>
      simp_all [VERSION, MAX_TTL, SENDER_ID_SIZE, RECIPIENT_ID_SIZE, MAX_PAYLOAD_SIZE,
        SIGNATURE_SIZE, ← List.length_eq_zero] <;> omega)

theorem decrementIter_of_le (p : BitchatPacket) :
    ∀ j, j ≤ p.ttl → decrementIter j p = some { p with ttl := p.ttl - j } := by
  intro j
  induction j with
  | zero => intro _; rfl
  | succ j ih =>
      intro h
      have hj : j ≤ p.ttl := Nat.le_of_succ_le h
      have h1 : decrementIter (j + 1) p = decrementTTL { p with ttl := p.ttl - j } := by
        show (decrementIter j p).bind decrementTTL = _
        rw [ih hj]
        rfl
      rw [h1]
      unfold decrementTTL
      rw [if_neg (by show ¬(p.ttl - j ≤ 0); omega)]
      simp [Nat.sub_sub]

end BinaryProtocol

namespace MeshService

theorem disconnectAttempts_map (l : List (Nat × MeshPeer)) :
    disconnectAttempts (l.map (fun pr => MeshEvent.disconnectAttempt pr.1)) =
      l.map Prod.fst := by
  induction l with
  | nil => rfl
  | cons pr t ih =>
      simpa [disconnectAttempts, List.filterMap_cons] using ih

/-- Filtering away everything a map produces. -/
theorem filter_map_none {α β : Type} (l : List α) (g : α → β) (p : β → Bool)
    (h : ∀ a, p (g a) = false) : (l.map g).filter p = [] := by
  induction l <;> simp_all

/-- Filtering keeps everything a map produces. -/
theorem filter_map_all {α β : Type} (l : List α) (g : α → β) (p : β → Bool)
    (h : ∀ a, p (g a) = true) : (l.map g).filter p = l.map g := by
  induction l <;> simp_all

/-- A `filterMap` that succeeds on everything a map produces. -/
theorem filterMap_map_all {α β γ : Type} (l : List α) (g : α → β) (q : β → Option γ)
    (r : α → γ) (h : ∀ a, q (g a) = some (r a)) : (l.map g).filterMap q = l.map r := by
  induction l <;> simp_all

/-- The `lastSeen` refresh changes no key and no element other than the
sender, so filtering out the sender commutes with it. -/
theorem refreshLastSeen_filter_ne (l : List (Nat × MeshPeer)) (f now : Nat) :
    (refreshLastSeen l f now).filter (fun pr => pr.1 ≠ f) =
      l.filter (fun pr => pr.1 ≠ f) := by
  induction l with
  | nil => rfl
  | cons a t ih =>
      simp only [refreshLastSeen, List.map_cons] at ih ⊢
      by_cases h : a.1 = f <;> simp_all

/-- Projecting the peer ids out of the non-sender filter. -/
theorem map_fst_filter_ne (l : List (Nat × MeshPeer)) (f : Nat) :
    (l.filter (fun pr => pr.1 ≠ f)).map Prod.fst =
      (l.map Prod.fst).filter (fun x => x ≠ f) := by
  induction l with
  | nil => rfl
  | cons a t ih => by_cases h : a.1 = f <;> simp_all

/-- Relay fan-out emits no delivery callback. -/
theorem deliveredEvents_relayMessage (sf : Nat → Bool) (s : MeshState)
    (p : BitchatPacket) (f : Nat) :
    deliveredEvents (relayMessage sf s p f) = [] := by
  unfold relayMessage
  cases BinaryProtocol.decrementTTL p with
  | none => rfl
  | some q => exact filter_map_none _ _ _ (fun a => rfl)

theorem deliveredEvents_append (a b : List MeshEvent) :
    deliveredEvents (a ++ b) = deliveredEvents a ++ deliveredEvents b :=
  List.filter_append a b

theorem writeTargets_append (a b : List MeshEvent) :
    writeTargets (a ++ b) = writeTargets a ++ writeTargets b :=
  List.filterMap_append a b _

theorem writeEvents_append (a b : List MeshEvent) :
    writeEvents (a ++ b) = writeEvents a ++ writeEvents b :=
  List.filter_append a b

/-- The targets of a fan-out built by mapping `writeAttempt` over peers. -/
theorem writeTargets_map_write (l : List (Nat × MeshPeer)) (d : List Nat)
    (ok : Nat × MeshPeer → Bool) :
    writeTargets (l.map (fun pr => MeshEvent.writeAttempt pr.1 d (ok pr))) =
      l.map Prod.fst :=
  filterMap_map_all l _ _ Prod.fst (fun a => rfl)

/-- A fan-out built by mapping `writeAttempt` over peers is all writes. -/
theorem writeEvents_map_write (l : List (Nat × MeshPeer)) (d : List Nat)
    (ok : Nat × MeshPeer → Bool) :
    writeEvents (l.map (fun pr => MeshEvent.writeAttempt pr.1 d (ok pr))) =
      l.map (fun pr => MeshEvent.writeAttempt pr.1 d (ok pr)) :=
  filter_map_all l _ _ (fun a => rfl)

/-- A positive ttl always lets `decrementTTL` produce the decremented copy. -/
theorem decrementTTL_of_pos (p : BitchatPacket) (h : 0 < p.ttl) :
    BinaryProtocol.decrementTTL p = some { p with ttl := p.ttl - 1 } := by
  unfold BinaryProtocol.decrementTTL
  rw [if_neg (by omega)]

/-- The admission path on a fresh, valid packet: dedup id inserted, `lastSeen`
refreshed, per-type handling emitted, then the relay fan-out when the ttl is
positive. -/
theorem onDataReceived_fresh (now : Nat) (sf : Nat → Bool) (s : MeshState) (f : Nat)
    (data : List Nat) (p : BitchatPacket)
    (hdec : BinaryProtocol.decode data = some p)
    (hval : BinaryProtocol.validate now p = true)
    (hfresh : BinaryProtocol.generateMessageId p ∉ s.processedMessages) :
    onDataReceived now sf s f data =
      ({ s with
          processedMessages := BinaryProtocol.generateMessageId p :: s.processedMessages
          connectedPeers := refreshLastSeen s.connectedPeers f now },
       handleIncomingPacket p f ++
         (if p.ttl > 0 then
            relayMessage sf
              { s with
                processedMessages := BinaryProtocol.generateMessageId p :: s.processedMessages
                connectedPeers := refreshLastSeen s.connectedPeers f now } p f
          else [])) := by
  unfold onDataReceived
  simp only [hdec, hval, if_true]
  rw [if_neg hfresh]

end MeshService

/-! ## Claim theorems -/

/-- C1 counterexample (corrected): a valid packet whose payload is compressible
(two byte runs, 128 bytes) does not round-trip — encode compresses it and the
defective decompressor (see C2) reconstructs 128 zero bytes instead of the
original payload, a field the intentional ID-trimming caveat does not cover.
A second valid packet whose `flags.hasRecipient` boolean disagrees with its
absent recipientID also fails the unrestricted claim: it decodes with
`hasRecipient = false`, forcing the flags-consistency restriction of the
amended claim. -/
theorem c1_roundtrip_counterexample :
    (BinaryProtocol.validate 1000 cexPacket = true ∧
      cexPacket.payload.length ≤ MAX_PAYLOAD_SIZE ∧
      (BinaryProtocol.decode (BinaryProtocol.encode cexPacket)).map (fun q => q.payload) ≠
        some cexPacket.payload) ∧
    (BinaryProtocol.validate 1000 cexFlagsPacket = true ∧
      cexFlagsPacket.flags.hasRecipient = true ∧
      (BinaryProtocol.decode (BinaryProtocol.encode cexFlagsPacket)).map
          (fun q => q.flags.hasRecipient) = some false) := by
  refine ⟨⟨by decide, by decide, by decide⟩, by decide, by decide, by decide⟩

/-- C1 as amended (the nearby statement that holds): for every valid,
well-formed packet whose flags booleans agree with the fields actually
present and whose payload the compression attempt leaves alone,
`decode (encode p)` returns `p` up to the intentional trimming of trailing
zero bytes from senderID and recipientID.  (The two restrictions are forced
by the code: the compression path corrupts multi-run payloads — C2 — and the
wire flag bits ignore the packet's own flags booleans — C10.) -/
theorem c1_roundtrip_uncompressed (now : Nat) (p : BitchatPacket)
    (hval : BinaryProtocol.validate now p = true)
    (hwf : WellFormedPacket p)
    (hfr : p.flags.hasRecipient = p.recipientID.isSome)
    (hfs : p.flags.hasSignature = p.signature.isSome)
    (hfc : p.flags.isCompressed = false)
    (hnc : CompressionUtil.compress p.payload = none) :
    BinaryProtocol.decode (BinaryProtocol.encode p) =
      some { p with
        senderID := BinaryProtocol.trimNullBytes p.senderID
        recipientID := p.recipientID.map BinaryProtocol.trimNullBytes } := by
  obtain ⟨hver, httl, hsne, hs8, hr8, hp4, hsig, hts⟩ :=
    (BinaryProtocol.validate_true_iff now p).mp hval
  rw [BinaryProtocol.decode_encode_uncompressed p hwf hs8 hr8 hp4 hsig hnc]
  rw [← hfr, ← hfs, ← hfc]

/-- Witness for C1 at `wPacket` (short incompressible payload, consistent
flags): the hypotheses hold and decode of encode restores the packet (its
senderID has no trailing zeros, so trimming is the identity here). -/
theorem c1_roundtrip_uncompressed_witness :
    BinaryProtocol.validate 1000 wPacket = true ∧
    WellFormedPacket wPacket ∧
    wPacket.flags.hasRecipient = wPacket.recipientID.isSome ∧
    wPacket.flags.hasSignature = wPacket.signature.isSome ∧
    wPacket.flags.isCompressed = false ∧
    CompressionUtil.compress wPacket.payload = none ∧
    BinaryProtocol.decode (BinaryProtocol.encode wPacket) =
      some { wPacket with
        senderID := BinaryProtocol.trimNullBytes wPacket.senderID
        recipientID := wPacket.recipientID.map BinaryProtocol.trimNullBytes } :=
  ⟨by decide, by decide, by decide, by decide, by decide, by decide,
    c1_roundtrip_uncompressed 1000 wPacket (by decide) (by decide) (by decide)
      (by decide) (by decide) (by decide)⟩

/-- C2 (code_bug): the run-length compressor emits each run's first byte as a
literal and also counts it inside the run triple, so the decompressor
over-emits and truncates.  On `cexPayload` (127 zero bytes then `0x01`),
`compress` succeeds with an 8-byte output, but `decompress` of that output at
the original size returns 128 zero bytes, not the input — refuting the claim
that `compress b = some c` implies `decompress c (len b) = b`. -/
theorem c2_compress_decompress_bug :
    CompressionUtil.compress cexPayload = some [0, 255, 0, 127, 1, 255, 1, 1] ∧
    CompressionUtil.decompress [0, 255, 0, 127, 1, 255, 1, 1] cexPayload.length =
      some (List.replicate 128 0) ∧
    (List.replicate 128 0 : List Nat) ≠ cexPayload := by
  refine ⟨by decide, by decide, by decide⟩

/-- C3 (code_bug): `pad` fills with bytes from the entropy source while
`unpad` demands every padding byte equal the padding length, so any padding
of 2 or more bytes whose random filler differs from the length marker is
never removed.  With the all-zero entropy oracle, `pad [] 2` gives `[0, 2]`
and `unpad` returns it unchanged instead of `[]`. -/
theorem c3_pad_unpad_bug :
    MessagePadding.pad [] 2 (fun _ => 0) = [0, 2] ∧
    MessagePadding.unpad (MessagePadding.pad [] 2 (fun _ => 0)) = [0, 2] ∧
    ([0, 2] : List Nat) ≠ [] := by
  refine ⟨by decide, by decide, by decide⟩

/-- C7 (confirmed): `validate now p` returns `true` exactly when the version
equals `VERSION`, `ttl ≤ MAX_TTL` (a `Nat` ttl is never negative), the
senderID is non-empty and at most 8 bytes, the recipientID is at most 8 bytes
when present, the payload is at most `MAX_PAYLOAD_SIZE` bytes, the signature
is exactly 64 bytes when present, and the timestamp is at most 5 minutes
(300000 ms) past `now`. -/
theorem c7_validate_characterization (now : Nat) (p : BitchatPacket) :
    BinaryProtocol.validate now p = true ↔
      (p.version = VERSION ∧ p.ttl ≤ MAX_TTL ∧ p.senderID.length ≠ 0 ∧
       p.senderID.length ≤ SENDER_ID_SIZE ∧
       (∀ r ∈ p.recipientID, r.length ≤ RECIPIENT_ID_SIZE) ∧
       p.payload.length ≤ MAX_PAYLOAD_SIZE ∧
       (∀ s ∈ p.signature, s.length = SIGNATURE_SIZE) ∧
       p.timestamp ≤ now + 300000) :=
  BinaryProtocol.validate_true_iff now p

/-- C8 (confirmed): starting from `ttl = k` (with `k ≤ MAX_TTL` as the claim
assumes), the `j`-th application of `decrementTTL` yields `some` with
`ttl = k - j` for every `j ≤ k` — i.e. exactly `k` non-`none` results with
ttl values `k-1` down to `0` — and the `(k+1)`-th application yields `none`;
moreover `decrementTTL` returns `none` exactly when the ttl is `0`. -/
theorem c8_ttl_termination (p : BitchatPacket) (hk : p.ttl ≤ MAX_TTL) :
    (BinaryProtocol.decrementTTL p = none ↔ p.ttl = 0) ∧
    (∀ j, j ≤ p.ttl →
      BinaryProtocol.decrementIter j p = some { p with ttl := p.ttl - j }) ∧
    BinaryProtocol.decrementIter (p.ttl + 1) p = none := by
  refine ⟨?_, BinaryProtocol.decrementIter_of_le p, ?_⟩
  · unfold BinaryProtocol.decrementTTL
    split_ifs with h
    · simp
      omega
    · simp
      omega
  · have h1 : BinaryProtocol.decrementIter (p.ttl + 1) p =
        BinaryProtocol.decrementTTL { p with ttl := p.ttl - p.ttl } := by
      show (BinaryProtocol.decrementIter p.ttl p).bind _ = _
      rw [BinaryProtocol.decrementIter_of_le p p.ttl (Nat.le_refl _)]
      rfl
    rw [h1]
    unfold BinaryProtocol.decrementTTL
    rw [if_pos (by show p.ttl - p.ttl ≤ 0; omega)]

/-- Witness for C8 at `wPacket` (ttl 3): hypotheses discharged at a concrete
packet, with the iterates at 2, 3 and 4 applications. -/
theorem c8_ttl_termination_witness :
    wPacket.ttl ≤ MAX_TTL ∧
    BinaryProtocol.decrementIter 2 wPacket = some { wPacket with ttl := 1 } ∧
    BinaryProtocol.decrementIter 3 wPacket = some { wPacket with ttl := 0 } ∧
    BinaryProtocol.decrementIter 4 wPacket = none :=
  ⟨by decide,
   (c8_ttl_termination wPacket (by decide)).2.1 2 (by decide),
   (c8_ttl_termination wPacket (by decide)).2.1 3 (by decide),
   (c8_ttl_termination wPacket (by decide)).2.2⟩

/-- The flags byte sits at index 11 of every encoded packet and equals
`encodeFlagsByte` applied at whether the compression attempt succeeded. -/
theorem encode_getD11 (p : BitchatPacket) :
    (BinaryProtocol.encode p).getD 11 0 =
      BinaryProtocol.encodeFlagsByte p (BinaryProtocol.encodeCompression p.payload).isSome := by
  show ((BinaryProtocol.encodeRaw p).map (fun b => b % 256)).getD 11 0 = _
  unfold BinaryProtocol.encodeRaw
  cases henc : BinaryProtocol.encodeCompression p.payload with
  | none =>
      simp only [henc, BinaryProtocol.tsBytesBE, BinaryProtocol.u16be, List.cons_append,
        List.nil_append, List.map_cons, Option.isSome_none]
      rw [hdGet11]
      exact Nat.mod_eq_of_lt (BinaryProtocol.encodeFlagsByte_lt p false)
  | some payload =>
      simp only [henc, BinaryProtocol.tsBytesBE, BinaryProtocol.u16be, List.cons_append,
        List.nil_append, List.map_cons, Option.isSome_some]
      rw [hdGet11]
      exact Nat.mod_eq_of_lt (BinaryProtocol.encodeFlagsByte_lt p true)

/-- C10 (confirmed): the wire flag bits emitted by `encode` are determined
solely by the presence of `recipientID` and `signature` and by whether the
compression attempt actually succeeded; the packet's own
`flags.hasRecipient` / `flags.hasSignature` / `flags.isCompressed` booleans
are ignored (replacing them arbitrarily leaves the encoding unchanged), so a
packet with inconsistent flags booleans still encodes with bits matching the
sections present on the wire. -/
theorem c10_encode_flag_bits (p : BitchatPacket) :
    (∀ r s c : Bool,
      BinaryProtocol.encode { p with flags := ⟨r, s, c, p.flags.isBSVRelated⟩ } =
        BinaryProtocol.encode p) ∧
    ((BinaryProtocol.encode p).getD 11 0 &&& BinaryProtocol.FLAG_HAS_RECIPIENT ≠ 0 ↔
      p.recipientID.isSome = true) ∧
    ((BinaryProtocol.encode p).getD 11 0 &&& BinaryProtocol.FLAG_HAS_SIGNATURE ≠ 0 ↔
      p.signature.isSome = true) ∧
    ((BinaryProtocol.encode p).getD 11 0 &&& BinaryProtocol.FLAG_IS_COMPRESSED ≠ 0 ↔
      BinaryProtocol.encodeCompression p.payload ≠ none) := by
  refine ⟨fun r s c => rfl, ?_, ?_, ?_⟩
  · rw [encode_getD11]
    unfold BinaryProtocol.encodeFlagsByte BinaryProtocol.FLAG_HAS_RECIPIENT
      BinaryProtocol.FLAG_HAS_SIGNATURE BinaryProtocol.FLAG_IS_COMPRESSED
      BinaryProtocol.FLAG_IS_BSV_RELATED
    exact BinaryProtocol.flagSum_bit1 _ _ _ _
  · rw [encode_getD11]
    unfold BinaryProtocol.encodeFlagsByte BinaryProtocol.FLAG_HAS_RECIPIENT
      BinaryProtocol.FLAG_HAS_SIGNATURE BinaryProtocol.FLAG_IS_COMPRESSED
      BinaryProtocol.FLAG_IS_BSV_RELATED
    exact BinaryProtocol.flagSum_bit2 _ _ _ _
  · rw [encode_getD11]
    unfold BinaryProtocol.encodeFlagsByte BinaryProtocol.FLAG_HAS_RECIPIENT
      BinaryProtocol.FLAG_HAS_SIGNATURE BinaryProtocol.FLAG_IS_COMPRESSED
      BinaryProtocol.FLAG_IS_BSV_RELATED
    rw [BinaryProtocol.flagSum_bit4]
    exact Option.isSome_iff_ne_none

/-- C4 counterexample (corrected): the claim quantifies over every wire byte
string, but a byte string that does not decode (here the empty string) admits
twice with zero delivery callbacks and zero relay writes, not exactly one of
each. -/
theorem c4_invalid_bytes_deliver_nothing :
    MeshService.deliveredEvents
        ((MeshService.onDataReceived 0 (fun _ => false) wState 1 []).2 ++
          (MeshService.onDataReceived 0 (fun _ => false)
            (MeshService.onDataReceived 0 (fun _ => false) wState 1 []).1 2 []).2) = [] ∧
    MeshService.writeTargets
        ((MeshService.onDataReceived 0 (fun _ => false) wState 1 []).2 ++
          (MeshService.onDataReceived 0 (fun _ => false)
            (MeshService.onDataReceived 0 (fun _ => false) wState 1 []).1 2 []).2) = [] ∧
    (MeshService.deliveredEvents
        ((MeshService.onDataReceived 0 (fun _ => false) wState 1 []).2 ++
          (MeshService.onDataReceived 0 (fun _ => false)
            (MeshService.onDataReceived 0 (fun _ => false) wState 1 []).1 2 []).2)).length ≠ 1 := by
  refine ⟨by decide, by decide, by decide⟩

/-- C4 as amended (the nearby statement that holds): when the wire bytes
decode to a validated `MESSAGE` packet with positive ttl whose id is not yet
in the dedup cache, admitting the same bytes twice (from any two peers, under
any transport oracles) produces exactly one delivery callback and exactly one
relay fan-out covering every connected peer other than the first sender; the
second admission is fully suppressed, emitting no event at all. -/
theorem c4_dedup_idempotent (now1 now2 : Nat) (sf1 sf2 : Nat → Bool)
    (s : MeshState) (from1 from2 : Nat) (data : List Nat) (p : BitchatPacket)
    (hdec : BinaryProtocol.decode data = some p)
    (hval : BinaryProtocol.validate now1 p = true)
    (hfresh : BinaryProtocol.generateMessageId p ∉ s.processedMessages)
    (htype : p.type = MESSAGE_TYPE)
    (httl : 0 < p.ttl) :
    (MeshService.onDataReceived now2 sf2
        (MeshService.onDataReceived now1 sf1 s from1 data).1 from2 data).2 = [] ∧
    MeshService.deliveredEvents
        ((MeshService.onDataReceived now1 sf1 s from1 data).2 ++
          (MeshService.onDataReceived now2 sf2
            (MeshService.onDataReceived now1 sf1 s from1 data).1 from2 data).2) =
      [MeshEvent.messageDelivered p from1] ∧
    MeshService.writeTargets
        ((MeshService.onDataReceived now1 sf1 s from1 data).2 ++
          (MeshService.onDataReceived now2 sf2
            (MeshService.onDataReceived now1 sf1 s from1 data).1 from2 data).2) =
      (s.connectedPeers.map Prod.fst).filter (fun x => x ≠ from1) := by
  have h1 := MeshService.onDataReceived_fresh now1 sf1 s from1 data p hdec hval hfresh
  have h2 : (MeshService.onDataReceived now2 sf2
      (MeshService.onDataReceived now1 sf1 s from1 data).1 from2 data).2 = [] := by
    rw [h1]
    unfold MeshService.onDataReceived
    simp only [hdec]
    by_cases hv2 : BinaryProtocol.validate now2 p = true
    · simp only [hv2, if_true]
      rw [if_pos (List.mem_cons_self _ _)]
    · rw [if_neg hv2]
  refine ⟨h2, ?_, ?_⟩
  · rw [h2, h1]
    simp only [List.append_nil]
    unfold MeshService.handleIncomingPacket
    rw [if_pos htype, if_pos httl, MeshService.deliveredEvents_append,
      MeshService.deliveredEvents_relayMessage]
    rfl
  · rw [h2, h1]
    simp only [List.append_nil]
    unfold MeshService.handleIncomingPacket
    rw [if_pos htype, if_pos httl, MeshService.writeTargets_append]
    unfold MeshService.relayMessage
    rw [MeshService.decrementTTL_of_pos p httl]
    dsimp only
    rw [MeshService.writeTargets_map_write, MeshService.refreshLastSeen_filter_ne,
      MeshService.map_fst_filter_ne]
    rfl

/-- Witness for C4: the amended dedup property at a concrete engine state with
peers 1, 2 and 3, admitting the same encoded `wPacket` from peer 1 and then
peer 2 — one delivery, one fan-out to peers 2 and 3, second admission empty. -/
theorem c4_dedup_idempotent_witness :
    BinaryProtocol.decode (BinaryProtocol.encode wPacket) = some wPacket ∧
    BinaryProtocol.validate 1000 wPacket = true ∧
    BinaryProtocol.generateMessageId wPacket ∉ wState.processedMessages ∧
    wPacket.type = MESSAGE_TYPE ∧
    0 < wPacket.ttl ∧
    ((MeshService.onDataReceived 1000 (fun _ => false)
        (MeshService.onDataReceived 1000 (fun _ => false) wState 1
          (BinaryProtocol.encode wPacket)).1 2 (BinaryProtocol.encode wPacket)).2 = [] ∧
      MeshService.deliveredEvents
          ((MeshService.onDataReceived 1000 (fun _ => false) wState 1
              (BinaryProtocol.encode wPacket)).2 ++
            (MeshService.onDataReceived 1000 (fun _ => false)
              (MeshService.onDataReceived 1000 (fun _ => false) wState 1
                (BinaryProtocol.encode wPacket)).1 2 (BinaryProtocol.encode wPacket)).2) =
        [MeshEvent.messageDelivered wPacket 1] ∧
      MeshService.writeTargets
          ((MeshService.onDataReceived 1000 (fun _ => false) wState 1
              (BinaryProtocol.encode wPacket)).2 ++
            (MeshService.onDataReceived 1000 (fun _ => false)
              (MeshService.onDataReceived 1000 (fun _ => false) wState 1
                (BinaryProtocol.encode wPacket)).1 2 (BinaryProtocol.encode wPacket)).2) =
        (wState.connectedPeers.map Prod.fst).filter (fun x => x ≠ 1)) :=
  ⟨by decide, by decide, by decide, by decide, by decide,
    c4_dedup_idempotent 1000 1000 (fun _ => false) (fun _ => false) wState 1 2
      (BinaryProtocol.encode wPacket) wPacket (by decide) (by decide) (by decide)
      (by decide) (by decide)⟩

/-- C5 (confirmed): a decoded, validated `MESSAGE` packet with `ttl = 3`
admitted fresh from a peer is re-encoded with `ttl = 2` and written to every
connected peer except the sender; each write attempt appears with its own
success bit from the transport oracle, so one peer's failure leaves the
attempts to the others in place (`Promise.allSettled` semantics). -/
theorem c5_relay_fanout (now : Nat) (sf : Nat → Bool) (s : MeshState) (fromPeer : Nat)
    (data : List Nat) (p : BitchatPacket)
    (hdec : BinaryProtocol.decode data = some p)
    (hval : BinaryProtocol.validate now p = true)
    (hfresh : BinaryProtocol.generateMessageId p ∉ s.processedMessages)
    (htype : p.type = MESSAGE_TYPE)
    (httl : p.ttl = 3) :
    MeshService.writeEvents (MeshService.onDataReceived now sf s fromPeer data).2 =
      (s.connectedPeers.filter (fun pr => pr.1 ≠ fromPeer)).map (fun pr =>
        MeshEvent.writeAttempt pr.1 (BinaryProtocol.encode { p with ttl := 2 })
          (pr.2.isConnected && !sf pr.1)) := by
  have h1 := MeshService.onDataReceived_fresh now sf s fromPeer data p hdec hval hfresh
  rw [h1]
  dsimp only
  unfold MeshService.handleIncomingPacket
  rw [if_pos htype, if_pos (show p.ttl > 0 by omega), MeshService.writeEvents_append]
  unfold MeshService.relayMessage
  rw [MeshService.decrementTTL_of_pos p (by omega)]
  dsimp only
  rw [MeshService.writeEvents_map_write, MeshService.refreshLastSeen_filter_ne, httl]
  rfl

/-- Witness for C5: peers 1, 2 and 3, sender 1, with a transport oracle that
fails exactly peer 2 — the fan-out still contains the attempt to peer 2
(failed) and the attempt to peer 3 (successful), both carrying the
re-encoding of `wPacket` at ttl 2. -/
theorem c5_relay_fanout_witness :
    BinaryProtocol.decode (BinaryProtocol.encode wPacket) = some wPacket ∧
    BinaryProtocol.validate 1000 wPacket = true ∧
    BinaryProtocol.generateMessageId wPacket ∉ wState.processedMessages ∧
    wPacket.type = MESSAGE_TYPE ∧
    wPacket.ttl = 3 ∧
    MeshService.writeEvents
        (MeshService.onDataReceived 1000 (fun pid => pid == 2) wState 1
          (BinaryProtocol.encode wPacket)).2 =
      (wState.connectedPeers.filter (fun pr => pr.1 ≠ 1)).map (fun pr =>
        MeshEvent.writeAttempt pr.1 (BinaryProtocol.encode { wPacket with ttl := 2 })
          (pr.2.isConnected && !(pr.1 == 2))) :=
  ⟨by decide, by decide, by decide, by decide, by decide,
    c5_relay_fanout 1000 (fun pid => pid == 2) wState 1 (BinaryProtocol.encode wPacket)
      wPacket (by decide) (by decide) (by decide) (by decide) (by decide)⟩

/-- C6 counterexample (corrected): an input consisting of a complete encoded
packet plus one surplus trailing byte decodes successfully, although its
remaining length after the declared 13-byte header does not equal
`expectedLength` — refuting the claim that any mismatch is rejected. -/
theorem c6_surplus_bytes_accepted :
    (BinaryProtocol.decode cex6Data).isSome = true ∧
    cex6Data.length - HEADER_SIZE ≠ BinaryProtocol.expectedLength cex6Data := by
  refine ⟨by decide, by decide⟩

/-- C6 as amended (the nearby statement that holds): `decode` rejects an input
exactly when it has fewer than `HEADER_SIZE + expectedLength` bytes — a
lower-bound check only, so inputs with surplus trailing bytes are accepted
and the surplus ignored.  (`HEADER_SIZE` is declared as 13 although the fixed
sections occupy 14 bytes, so the bound is additionally one byte short of a
complete packet.) -/
theorem c6_decode_rejects_iff_short (data : List Nat) :
    BinaryProtocol.decode data = none ↔
      data.length < HEADER_SIZE + BinaryProtocol.expectedLength data := by
  unfold BinaryProtocol.decode
  split_ifs with h1 h2
  · simp only [true_iff]
    exact Nat.lt_of_lt_of_le h1 (Nat.le_add_right _ _)
  · simp [h2]
  · simp only [CompressionUtil.decompress]
    split_ifs <;> simp [h2]

/-- C9 (code_bug): `stopServices` cancels only the duty-cycle scan timer (via
`stopScanning`) and attempts a disconnect for every connected peer, but never
clears `peerCleanupTimer` or `coverTrafficTimer` — no code path cancels those
two intervals.  Stated generally (stop preserves both timer flags for every
state, and attempts a disconnect of every peer) and at the concrete active
state `s9State`, where both timers are still pending after stop while the
peers were disconnected. -/
theorem c9_stop_leaves_interval_timers :
    (∀ s : MeshState,
      (MeshService.stopServices s).1.peerCleanupTimer = s.peerCleanupTimer ∧
      (MeshService.stopServices s).1.coverTrafficTimer = s.coverTrafficTimer ∧
      MeshService.disconnectAttempts (MeshService.stopServices s).2 =
        s.connectedPeers.map Prod.fst) ∧
    (MeshService.stopServices s9State).1.peerCleanupTimer = true ∧
    (MeshService.stopServices s9State).1.coverTrafficTimer = true ∧
    (MeshService.stopServices s9State).1.scanDutyCycleTimer = false ∧
    (MeshService.stopServices s9State).1.isScanning = false ∧
    (MeshService.stopServices s9State).1.connectedPeers = [] ∧
    MeshService.disconnectAttempts (MeshService.stopServices s9State).2 = [1, 2] := by
  refine ⟨fun s => ?_, by decide, by decide, by decide, by decide, by decide, by decide⟩
  unfold MeshService.stopServices MeshService.stopScanning MeshService.stopAdvertising
    MeshService.disconnectAllPeers
  split_ifs <;> simp [MeshService.disconnectAttempts_map, apply_ite]

end Bitchat
